import Mathlib

/-!
Verification development for the background run scheduler of
`langgraph_api/queue.py`: the `queue` scheduler loop, the `worker`
execution unit, the `cleanup` completion handler with its webhook
dispatch, and the checkpoint/event-stream consumption the worker
performs.  Every definition is a shallow embedding of the corresponding
Python code; definitions whose Python source is outside the repository
snapshot are marked as modelled from the specification.
-/

namespace LangGraphQueue

/-- `MAX_RETRY_ATTEMPTS = 3` (queue.py line 38). -/
def MAX_RETRY_ATTEMPTS : Nat := 3

/-- `SHUTDOWN_GRACE_PERIOD_SECS = 5` (queue.py line 39). -/
def SHUTDOWN_GRACE_PERIOD_SECS : Nat := 5

/-- One task entry of a checkpoint payload.  `id` is the task identifier
used for matching task-result events; `name` stands for the fields a
task-result payload does not carry (preserved by `dict.update`), and
`result` for the fields it does carry (overwritten by `dict.update`). -/
structure TaskEntry where
  id : Nat
  name : Nat
  result : Nat
  deriving DecidableEq, Repr

/-- A `TaskResultPayload`: task identifier plus the updated result fields. -/
structure TaskResultPayload where
  id : Nat
  result : Nat
  deriving DecidableEq, Repr

/-- A `CheckpointPayload`: materialized values plus per-task entries. -/
structure CheckpointPayload where
  values : Nat
  tasks : List TaskEntry
  deriving DecidableEq, Repr

/-- `task.update(task_result)` (queue.py line 246): the result fields of
the payload overwrite the task entry's, the other fields survive. -/
def updateTask (t : TaskEntry) (tr : TaskResultPayload) : TaskEntry :=
  { id := tr.id, name := t.name, result := tr.result }

/-- The loop of `on_task_result` (queue.py lines 243-247): update the
first task entry whose id matches, then stop (`break`). -/
def updateFirstMatch (tasks : List TaskEntry) (tr : TaskResultPayload) : List TaskEntry :=
  match tasks with
  | [] => []
  | t :: rest =>
    if t.id = tr.id then updateTask t tr :: rest
    else t :: updateFirstMatch rest tr

/-- Merging one task-result payload into a held checkpoint
(`on_task_result` body for a non-`None` checkpoint). -/
def mergeOne (c : CheckpointPayload) (tr : TaskResultPayload) : CheckpointPayload :=
  { values := c.values, tasks := updateFirstMatch c.tasks tr }

/-- One event of the pipeline's stream as observed through the two
callbacks the worker registers. -/
inductive StreamEvent where
  | checkpointEv (cp : CheckpointPayload)
  | taskResultEv (tr : TaskResultPayload)
  deriving DecidableEq, Repr

/-- Effect of one callback invocation on the worker's `checkpoint`
variable: `on_checkpoint` (lines 238-240) replaces it wholesale,
`on_task_result` (lines 242-247) merges into it and is a no-op when no
checkpoint has been captured yet. -/
def applyEvent (cur : Option CheckpointPayload) (ev : StreamEvent) : Option CheckpointPayload :=
  match ev with
  | .checkpointEv cp => some cp
  | .taskResultEv tr =>
    match cur with
    | none => none
    | some c => some (mergeOne c tr)

/-- The worker's `checkpoint` variable after the callbacks have run over
a (prefix of a) stream, in order. -/
def foldEvents : Option CheckpointPayload → List StreamEvent → Option CheckpointPayload
  | cur, [] => cur
  | cur, ev :: rest => foldEvents (applyEvent cur ev) rest

/-- Merge a list of task-result payloads into a checkpoint, in order. -/
def applyResults (c : CheckpointPayload) (trs : List TaskResultPayload) : CheckpointPayload :=
  trs.foldl mergeOne c

/-- The task-result payloads of a stream segment, in order. -/
def taskResultsOf (evs : List StreamEvent) : List TaskResultPayload :=
  evs.filterMap (fun ev =>
    match ev with
    | .taskResultEv tr => some tr
    | .checkpointEv _ => none)

/-- The last checkpoint snapshot of a stream together with the events
that follow it, if any checkpoint event occurs at all. -/
def lastCheckpointSplit : List StreamEvent → Option (CheckpointPayload × List StreamEvent)
  | [] => none
  | .checkpointEv cp :: rest =>
    match lastCheckpointSplit rest with
    | some p => some p
    | none => some (cp, rest)
  | .taskResultEv _ :: rest => lastCheckpointSplit rest

/-- Modelled from the spec: the specification's description of the final
captured checkpoint — the latest checkpoint snapshot with every
subsequent task-result event merged into the matching task entry, so the
final checkpoint reflects the most up-to-date per-task outcome observed
in the stream; absent when the stream held no checkpoint event. -/
def specFinalCheckpoint (evs : List StreamEvent) : Option CheckpointPayload :=
  match lastCheckpointSplit evs with
  | none => none
  | some (cp, rest) => some (applyResults cp (taskResultsOf rest))

theorem applyResults_cons (c : CheckpointPayload) (tr : TaskResultPayload)
    (trs : List TaskResultPayload) :
    applyResults c (tr :: trs) = applyResults (mergeOne c tr) trs := rfl

theorem foldEvents_spec (evs : List StreamEvent) :
    ∀ cur : Option CheckpointPayload,
      foldEvents cur evs =
        match lastCheckpointSplit evs with
        | some (cp, rest) => some (applyResults cp (taskResultsOf rest))
        | none => cur.map (fun c => applyResults c (taskResultsOf evs)) := by
  induction evs with
  | nil =>
    intro cur
    cases cur <;> simp [foldEvents, lastCheckpointSplit, taskResultsOf, applyResults]
  | cons ev rest ih =>
    intro cur
    cases ev with
    | checkpointEv cp =>
      have h := ih (some cp)
      simp only [foldEvents, applyEvent, lastCheckpointSplit]
      rw [h]
      cases hsplit : lastCheckpointSplit rest with
      | none => simp [taskResultsOf, Option.map]
      | some p => simp
    | taskResultEv tr =>
      simp only [foldEvents, applyEvent, lastCheckpointSplit]
      cases cur with
      | none =>
        rw [ih none]
        cases hsplit : lastCheckpointSplit rest with
        | none => simp [Option.map]
        | some p => simp
      | some c =>
        rw [ih (some (mergeOne c tr))]
        cases hsplit : lastCheckpointSplit rest with
        | none =>
          simp [taskResultsOf, Option.map, applyResults_cons]
        | some p => simp

/-- The run-status vocabulary written to the store or recorded in a
`WorkerResult` (queue.py lines 277, 281, 295, 322, 336, 352 and the
corresponding `Runs.set_status` arguments). -/
inductive RunStatus where
  | pending
  | running
  | success
  | error
  | timeout
  | interrupted
  | rollback
  | retry
  deriving DecidableEq, Repr

/-- The exception kinds the worker's `try` distinguishes.  `retriableExc`
stands for the members of `RETRIABLE_EXCEPTIONS`; modelled from the spec:
`langgraph_storage/retry.py` is not in the snapshot, and per the spec the
retriable set holds designated transient connectivity/database error
kinds, disjoint from `TimeoutError`, `UserRollback`, `UserInterrupt` and
from the locally raised `RuntimeError` of the attempt ceiling.
`otherExc` carries a code so distinct unclassified exceptions exist. -/
inductive ExcKind where
  | timeoutErr
  | userRollback
  | userInterrupt
  | retriableExc
  | remoteExc
  | runtimeMaxAttempts
  | otherExc (code : Nat)
  deriving DecidableEq, Repr

/-- The exception branches of the worker's `try` statement
(queue.py lines 279, 293, 320, 334, 350), in source order. -/
inductive Branch where
  | timeoutB
  | rollbackB
  | interruptB
  | retryB
  | errorB
  deriving DecidableEq, Repr

/-- Which `except` clause catches a raised exception: the clauses are
tried in source order, the final `except Exception` catches the rest. -/
def classifyExc : ExcKind → Branch
  | .timeoutErr => .timeoutB
  | .userRollback => .rollbackB
  | .userInterrupt => .interruptB
  | .retriableExc => .retryB
  | .remoteExc => .errorB
  | .runtimeMaxAttempts => .errorB
  | .otherExc _ => .errorB

/-- How far the awaited pipeline consumption got: it either completed
within the timeout or ended with a raised exception (``TimeoutError``
from `asyncio.wait_for` included). -/
inductive Termination where
  | completed
  | raised (e : ExcKind)
  deriving DecidableEq, Repr

/-- One attempt's view of the pipeline: the stream events delivered to
the callbacks before consumption ended, and how consumption ended. -/
structure PipelineRun where
  events : List StreamEvent
  term : Termination
  deriving DecidableEq, Repr

/-- The run record fields the worker reads: identifier, owning thread,
the `temporary` flag and the `webhook` target popped from `kwargs`. -/
structure RunRec where
  runId : Nat
  threadId : Nat
  temporary : Bool
  webhook : Option String
  deriving DecidableEq, Repr

/-- Outcome of `Runs.delete` on the rollback path (queue.py line 307):
it succeeds, raises `InFailedSqlTransaction`, or raises something else. -/
inductive DeleteOutcome where
  | ok
  | failedTxn
  | failOther (e : ExcKind)
  deriving DecidableEq, Repr

/-- The store/context operations the worker issues, in order:
`Runs.set_status`, `Runs.delete`, the early `exit.aclose()` of the
rollback path, `set_auth_ctx(None, None)`, `Threads.delete`,
`Threads.set_status`. -/
inductive StoreOp where
  | setStatus (runId : Nat) (status : RunStatus)
  | deleteRun (runId : Nat) (threadId : Nat)
  | closeExit
  | clearAuth
  | threadDelete (threadId : Nat)
  | threadSetStatus (threadId : Nat) (checkpoint : Option CheckpointPayload)
      (exception : Option ExcKind)
  deriving DecidableEq, Repr

/-- The `WorkerResult` record (queue.py lines 166-173, 374-382), minus
the wall-clock timestamps. -/
structure WorkerResult where
  checkpoint : Option CheckpointPayload
  status : Option RunStatus
  exception : Option ExcKind
  run : RunRec
  webhook : Option String
  deriving DecidableEq, Repr

/-- How the worker coroutine ends: returning its result dict, or with an
exception propagating to the scheduler's completion callback. -/
inductive WorkerRet where
  | ok (r : WorkerResult)
  | raised (e : ExcKind)
  deriving DecidableEq, Repr

/-- One worker attempt's observable outcome: the operations it performed
on the store/context, in order, and how the coroutine ended. -/
structure WorkerOutput where
  ops : List StoreOp
  ret : WorkerRet
  deriving DecidableEq, Repr

/-- Lines 365-370: `set_auth_ctx(None, None)` followed by deletion of
the thread for a temporary run, else the final thread status write. -/
def finalizeOps (run : RunRec) (checkpoint : Option CheckpointPayload)
    (exception : Option ExcKind) : List StoreOp :=
  StoreOp.clearAuth ::
    (if run.temporary then [StoreOp.threadDelete run.threadId]
     else [StoreOp.threadSetStatus run.threadId checkpoint exception])

/-- The `worker` coroutine (queue.py lines 205-382) as a function of the
run record, the attempt number, the pipeline behaviour of this attempt
and the behaviour of the rollback-path `Runs.delete`.  The attempt
ceiling raises `RuntimeError` before the stream is created; callbacks
are registered only for non-temporary runs; each `except` branch issues
its store writes; the retriable branch re-raises, so lines 365-370 are
skipped there, as they are when the rollback-path delete raises anything
but `InFailedSqlTransaction`. -/
def worker (run : RunRec) (attempt : Nat) (pipe : PipelineRun)
    (del : DeleteOutcome) : WorkerOutput :=
  if MAX_RETRY_ATTEMPTS < attempt then
    { ops := StoreOp.setStatus run.runId .error ::
        finalizeOps run none (some .runtimeMaxAttempts),
      ret := .ok { checkpoint := none, status := some .error,
                   exception := some .runtimeMaxAttempts,
                   run := run, webhook := run.webhook } }
  else
    let checkpoint0 : Option CheckpointPayload :=
      if run.temporary then none else foldEvents none pipe.events
    match pipe.term with
    | .completed =>
      { ops := StoreOp.setStatus run.runId .success ::
          finalizeOps run checkpoint0 none,
        ret := .ok { checkpoint := checkpoint0, status := some .success,
                     exception := none, run := run, webhook := run.webhook } }
    | .raised e =>
      match classifyExc e with
      | .timeoutB =>
        { ops := StoreOp.setStatus run.runId .timeout ::
            finalizeOps run checkpoint0 (some e),
          ret := .ok { checkpoint := checkpoint0, status := some .timeout,
                       exception := some e, run := run, webhook := run.webhook } }
      | .rollbackB =>
        match del with
        | .ok =>
          { ops := StoreOp.deleteRun run.runId run.threadId ::
              finalizeOps run none (some e),
            ret := .ok { checkpoint := none, status := some .rollback,
                         exception := some e, run := run, webhook := run.webhook } }
        | .failedTxn =>
          { ops := StoreOp.deleteRun run.runId run.threadId :: StoreOp.closeExit ::
              finalizeOps run none (some e),
            ret := .ok { checkpoint := none, status := some .rollback,
                         exception := some e, run := run, webhook := run.webhook } }
        | .failOther e2 =>
          { ops := [StoreOp.deleteRun run.runId run.threadId],
            ret := .raised e2 }
      | .interruptB =>
        { ops := StoreOp.setStatus run.runId .interrupted ::
            finalizeOps run checkpoint0 (some e),
          ret := .ok { checkpoint := checkpoint0, status := some .interrupted,
                       exception := some e, run := run, webhook := run.webhook } }
      | .retryB =>
        { ops := [StoreOp.setStatus run.runId .pending],
          ret := .raised e }
      | .errorB =>
        { ops := StoreOp.setStatus run.runId .error ::
            finalizeOps run checkpoint0 (some e),
          ret := .ok { checkpoint := checkpoint0, status := some .error,
                       exception := some e, run := run, webhook := run.webhook } }

/-- The `(run_id, status)` pairs of the `Runs.set_status` calls among a
worker's operations, in order. -/
def statusWrites (ops : List StoreOp) : List (Nat × RunStatus) :=
  ops.filterMap (fun op =>
    match op with
    | .setStatus rid st => some (rid, st)
    | _ => none)

/-- The operations that decide a run's store-side fate: a status write
or the rollback-path run deletion. -/
def isTerminalMarker : StoreOp → Bool
  | .setStatus _ _ => true
  | .deleteRun _ _ => true
  | _ => false

/-- The branch-deciding operations among a worker's operations. -/
def terminalMarkers (ops : List StoreOp) : List StoreOp :=
  ops.filter isTerminalMarker

/-- One webhook dispatch as built by `cleanup` (queue.py lines 60-90):
target URL, the fixed `total_timeout=20`, and the payload fields drawn
from the worker result (`status`, checkpoint `values`, optional error). -/
structure WebhookCall where
  url : String
  timeoutSecs : Nat
  payloadStatus : Option RunStatus
  payloadValues : Option Nat
  payloadError : Option ExcKind
  deriving DecidableEq, Repr

/-- The webhook dispatches the `cleanup` callback starts for one
finished worker task.  `task.result()` (line 56) re-raises a worker
exception, which the callback's own handler catches and logs, so a
worker that ended in an exception dispatches nothing; a worker result
without a webhook target dispatches nothing; otherwise exactly one task
is spawned with the payload of lines 62-71. -/
def cleanupWebhooks (o : WorkerOutput) : List WebhookCall :=
  match o.ret with
  | .raised _ => []
  | .ok r =>
    match r.webhook with
    | none => []
    | some url =>
      [{ url := url, timeoutSecs := 20,
         payloadStatus := r.status,
         payloadValues := r.checkpoint.map (fun c => c.values),
         payloadError := r.exception }]

/-- The events of one run's life as ordered by the code: the worker's
store operations happen inside the worker coroutine, and `cleanup` (and
hence any webhook dispatch) runs only once the worker task is done. -/
inductive RunEvent where
  | storeOp (op : StoreOp)
  | webhookDispatch (w : WebhookCall)
  deriving DecidableEq, Repr

/-- One run's ordered observable events: worker operations, then the
completion handler's webhook dispatches. -/
def runLifecycle (run : RunRec) (attempt : Nat) (pipe : PipelineRun)
    (del : DeleteOutcome) : List RunEvent :=
  ((worker run attempt pipe del).ops.map RunEvent.storeOp) ++
    ((cleanupWebhooks (worker run attempt pipe del)).map RunEvent.webhookDispatch)

/-- Whether the HTTP POST of `_call_webhook` succeeds or raises. -/
inductive HttpOutcome where
  | posted
  | httpError (e : ExcKind)
  deriving DecidableEq, Repr

/-- Observable effect of running one `_call_webhook` task
(queue.py lines 73-83): how many POSTs were attempted and which
exception escaped the task. -/
structure WebhookTaskRun where
  postsAttempted : Nat
  escaped : Option ExcKind
  deriving DecidableEq, Repr

/-- `_call_webhook`: one POST attempt; `except Exception` logs and
swallows any failure, so nothing escapes and nothing is retried. -/
def callWebhook (_w : WebhookCall) (h : HttpOutcome) : WebhookTaskRun :=
  match h with
  | .posted => { postsAttempted := 1, escaped := none }
  | .httpError _ => { postsAttempted := 1, escaped := none }

/-- Scheduler-loop state: available semaphore permits, live worker
tasks (`WORKERS`), cumulative gate acquire/release counts (the spec's
instrumentation), and whether the loop has been cancelled into its
`finally` shutdown block. -/
structure SchedState where
  sem : Nat
  running : Nat
  acq : Nat
  rel : Nat
  shuttingDown : Bool
  deriving DecidableEq, Repr

/-- Scheduler state at `queue(concurrency, timeout)` startup:
`asyncio.Semaphore(concurrency)`, no live workers. -/
def initState (concurrency : Nat) : SchedState :=
  { sem := concurrency, running := 0, acq := 0, rel := 0, shuttingDown := false }

/-- One observable step of the scheduler loop (queue.py lines 100-163).
Iterations start with `await semaphore.acquire()`; fallible awaits are
`Runs.next` (slot held, nothing dispatched yet) and the stats/sweep
store block at lines 138-148, which runs after the slot has already been
handed to a spawned worker or released for an empty poll; the `except`
clause at lines 149-153 releases the semaphore unconditionally.
`workerDone` is the `cleanup` completion callback releasing a worker's
slot; `cancelSched` is external cancellation reaching the `finally`. -/
inductive SchedEvent where
  | claimNone
  | claimRun
  | excDuringClaim
  | excAfterSpawn
  | excAfterNone
  | workerDone
  | cancelSched
  deriving DecidableEq, Repr

/-- Step function of the scheduler loop.  `none` means the event cannot
occur in that state (acquire blocks on an empty semaphore; no worker can
finish when none is live; nothing runs after shutdown began).
Semaphore arithmetic spells out the acquire (`- 1`) and each release
(`+ 1`) the iteration performs. -/
def stepFn (s : SchedState) (ev : SchedEvent) : Option SchedState :=
  if s.shuttingDown then none
  else
    match ev with
    | .claimNone =>
      if 0 < s.sem then
        some { s with sem := s.sem - 1 + 1, acq := s.acq + 1, rel := s.rel + 1 }
      else none
    | .claimRun =>
      if 0 < s.sem then
        some { s with sem := s.sem - 1, running := s.running + 1, acq := s.acq + 1 }
      else none
    | .excDuringClaim =>
      if 0 < s.sem then
        some { s with sem := s.sem - 1 + 1, acq := s.acq + 1, rel := s.rel + 1 }
      else none
    | .excAfterSpawn =>
      if 0 < s.sem then
        some { s with sem := s.sem - 1 + 1, running := s.running + 1,
                      acq := s.acq + 1, rel := s.rel + 1 }
      else none
    | .excAfterNone =>
      if 0 < s.sem then
        some { s with sem := s.sem - 1 + 1 + 1, acq := s.acq + 1, rel := s.rel + 2 }
      else none
    | .workerDone =>
      if 0 < s.running then
        some { s with sem := s.sem + 1, running := s.running - 1, rel := s.rel + 1 }
      else none
    | .cancelSched => some { s with shuttingDown := true }

/-- Run the scheduler over a sequence of events. -/
def runTrace (s : SchedState) : List SchedEvent → Option SchedState
  | [] => some s
  | ev :: rest =>
    match stepFn s ev with
    | none => none
    | some s2 => runTrace s2 rest

/-- The events in which a scheduler-level exception strikes after the
iteration has already disposed of its semaphore slot, so the `except`
clause's unconditional release is an extra one. -/
def doubleReleaseEvent : SchedEvent → Bool
  | .excAfterSpawn => true
  | .excAfterNone => true
  | _ => false

/-- The events modelling a scheduler-level exception caught by the
`except` clause at queue.py lines 149-153. -/
def isExcEvent : SchedEvent → Bool
  | .excDuringClaim => true
  | .excAfterSpawn => true
  | .excAfterNone => true
  | _ => false

/-- The `wait`-relevant loop variables at the top of an iteration:
`last_stats_secs` and whether the previous `Runs.next` yielded a run
(`tup is not None`). -/
structure PollState where
  lastStatsSecs : Option Nat
  tup : Bool
  deriving DecidableEq, Repr

/-- The walrus condition at queue.py lines 108-111: stats are due when
`last_stats_secs is None` or the interval has elapsed. -/
def calcStats (interval : Nat) (lastStats : Option Nat) (now : Nat) : Bool :=
  match lastStats with
  | none => true
  | some t => interval < now - t

/-- `last_stats_secs` after the stats block (line 112): set to the
current clock when stats were due, unchanged otherwise. -/
def statsUpdate (interval : Nat) (lastStats : Option Nat) (now : Nat) : Option Nat :=
  if calcStats interval lastStats now then some now else lastStats

/-- Line 124: `wait = tup is None and last_stats_secs is not None`. -/
def waitFlag (tupPrev : Bool) (lastStats : Option Nat) : Bool :=
  !tupPrev && lastStats.isSome

/-- The `wait` argument passed to `Runs.next` on an iteration beginning
in poll state `st` at clock `now`: the stats block runs first and may
assign `last_stats_secs`, then line 124 computes `wait`. -/
def iterationWait (interval : Nat) (st : PollState) (now : Nat) : Bool :=
  waitFlag st.tup (statsUpdate interval st.lastStatsSecs now)

/-- Poll state before the first iteration: `last_stats_secs = None`,
`tup = None` (queue.py lines 48, 99). -/
def initPollState : PollState :=
  { lastStatsSecs := none, tup := false }

/-- The actions of the `finally` shutdown block (queue.py lines
154-163): cancel every live worker task and every live webhook task,
then wait for them with a bounded timeout. -/
inductive ShutdownAction where
  | cancelTask (id : Nat)
  | waitUpTo (secs : Nat)
  deriving DecidableEq, Repr

/-- The shutdown block's action sequence for the given live task sets. -/
def shutdownActions (workers webhooks : List Nat) : List ShutdownAction :=
  workers.map ShutdownAction.cancelTask ++ webhooks.map ShutdownAction.cancelTask ++
    [ShutdownAction.waitUpTo SHUTDOWN_GRACE_PERIOD_SECS]

/-- When `asyncio.gather` over tasks with the given unwind times
finishes: the largest, `none` when some task never unwinds. -/
def gatherCompletion : List (Option Nat) → Option Nat
  | [] => some 0
  | t :: rest =>
    match t, gatherCompletion rest with
    | some a, some b => some (max a b)
    | _, _ => none

/-- `asyncio.wait_for(gather, timeoutSecs)` returns or raises after at
most `timeoutSecs`, whether or not the gathered tasks finish. -/
def waitForDuration (timeoutSecs : Nat) (completion : Option Nat) : Nat :=
  match completion with
  | none => timeoutSecs
  | some t => min t timeoutSecs

/-- Time the shutdown block spends waiting for the cancelled tasks. -/
def shutdownDuration (unwindTimes : List (Option Nat)) : Nat :=
  waitForDuration SHUTDOWN_GRACE_PERIOD_SECS (gatherCompletion unwindTimes)

theorem stepFn_acct {N : Nat} {s s2 : SchedState} {ev : SchedEvent}
    (h : stepFn s ev = some s2) (hinv : s.sem + s.acq = N + s.rel) :
    s2.sem + s2.acq = N + s2.rel := by
  cases ev <;> simp only [stepFn] at h <;> split at h <;>
    first
      | exact Option.noConfusion h
      | (injection h with h2; subst h2; simp; omega)
      | (split at h
         · injection h with h2; subst h2; simp; omega
         · exact Option.noConfusion h)

theorem stepFn_safe_sum {s s2 : SchedState} {ev : SchedEvent}
    (h : stepFn s ev = some s2) (hsafe : doubleReleaseEvent ev = false) :
    s2.sem + s2.running = s.sem + s.running := by
  cases ev with
  | excAfterSpawn => exact absurd hsafe (by simp [doubleReleaseEvent])
  | excAfterNone => exact absurd hsafe (by simp [doubleReleaseEvent])
  | claimNone =>
    simp only [stepFn] at h
    split at h
    · exact Option.noConfusion h
    · split at h
      · injection h with h2; subst h2; simp; omega
      · exact Option.noConfusion h
  | claimRun =>
    simp only [stepFn] at h
    split at h
    · exact Option.noConfusion h
    · split at h
      · injection h with h2; subst h2; simp; omega
      · exact Option.noConfusion h
  | excDuringClaim =>
    simp only [stepFn] at h
    split at h
    · exact Option.noConfusion h
    · split at h
      · injection h with h2; subst h2; simp; omega
      · exact Option.noConfusion h
  | workerDone =>
    simp only [stepFn] at h
    split at h
    · exact Option.noConfusion h
    · split at h
      · injection h with h2; subst h2; simp; omega
      · exact Option.noConfusion h
  | cancelSched =>
    simp only [stepFn] at h
    split at h
    · exact Option.noConfusion h
    · injection h with h2; subst h2; simp

theorem stepFn_no_cancel {s s2 : SchedState} {ev : SchedEvent}
    (h : stepFn s ev = some s2) (hev : ev ≠ SchedEvent.cancelSched) :
    s2.shuttingDown = false := by
  cases ev with
  | cancelSched => exact absurd rfl hev
  | claimNone =>
    simp only [stepFn] at h
    split at h
    · exact Option.noConfusion h
    · rename_i hsd
      simp only [Bool.not_eq_true] at hsd
      split at h
      · injection h with h2; subst h2; simpa using hsd
      · exact Option.noConfusion h
  | claimRun =>
    simp only [stepFn] at h
    split at h
    · exact Option.noConfusion h
    · rename_i hsd
      simp only [Bool.not_eq_true] at hsd
      split at h
      · injection h with h2; subst h2; simpa using hsd
      · exact Option.noConfusion h
  | excDuringClaim =>
    simp only [stepFn] at h
    split at h
    · exact Option.noConfusion h
    · rename_i hsd
      simp only [Bool.not_eq_true] at hsd
      split at h
      · injection h with h2; subst h2; simpa using hsd
      · exact Option.noConfusion h
  | excAfterSpawn =>
    simp only [stepFn] at h
    split at h
    · exact Option.noConfusion h
    · rename_i hsd
      simp only [Bool.not_eq_true] at hsd
      split at h
      · injection h with h2; subst h2; simpa using hsd
      · exact Option.noConfusion h
  | excAfterNone =>
    simp only [stepFn] at h
    split at h
    · exact Option.noConfusion h
    · rename_i hsd
      simp only [Bool.not_eq_true] at hsd
      split at h
      · injection h with h2; subst h2; simpa using hsd
      · exact Option.noConfusion h
  | workerDone =>
    simp only [stepFn] at h
    split at h
    · exact Option.noConfusion h
    · rename_i hsd
      simp only [Bool.not_eq_true] at hsd
      split at h
      · injection h with h2; subst h2; simpa using hsd
      · exact Option.noConfusion h

theorem runTrace_acct {N : Nat} :
    ∀ (evs : List SchedEvent) (s0 s : SchedState),
      runTrace s0 evs = some s → s0.sem + s0.acq = N + s0.rel →
      s.sem + s.acq = N + s.rel := by
  intro evs
  induction evs with
  | nil =>
    intro s0 s h hinv
    unfold runTrace at h
    injection h with h2
    subst h2
    exact hinv
  | cons ev rest ih =>
    intro s0 s h hinv
    unfold runTrace at h
    cases hstep : stepFn s0 ev with
    | none => rw [hstep] at h; exact Option.noConfusion h
    | some s1 =>
      rw [hstep] at h
      exact ih s1 s h (stepFn_acct hstep hinv)

theorem runTrace_safe_sum :
    ∀ (evs : List SchedEvent) (s0 s : SchedState),
      runTrace s0 evs = some s →
      (∀ ev ∈ evs, doubleReleaseEvent ev = false) →
      s.sem + s.running = s0.sem + s0.running := by
  intro evs
  induction evs with
  | nil =>
    intro s0 s h _
    unfold runTrace at h
    injection h with h2
    subst h2
    rfl
  | cons ev rest ih =>
    intro s0 s h hsafe
    unfold runTrace at h
    cases hstep : stepFn s0 ev with
    | none => rw [hstep] at h; exact Option.noConfusion h
    | some s1 =>
      rw [hstep] at h
      have h1 := ih s1 s h (fun e he => hsafe e (List.mem_cons_of_mem ev he))
      have h2 := stepFn_safe_sum hstep (hsafe ev (List.mem_cons_self ev rest))
      omega

theorem runTrace_no_cancel :
    ∀ (evs : List SchedEvent) (s0 s : SchedState),
      runTrace s0 evs = some s →
      (∀ ev ∈ evs, ev ≠ SchedEvent.cancelSched) →
      s0.shuttingDown = false →
      s.shuttingDown = false := by
  intro evs
  induction evs with
  | nil =>
    intro s0 s h _ h0
    unfold runTrace at h
    injection h with h2
    subst h2
    exact h0
  | cons ev rest ih =>
    intro s0 s h hnc h0
    unfold runTrace at h
    cases hstep : stepFn s0 ev with
    | none => rw [hstep] at h; exact Option.noConfusion h
    | some s1 =>
      rw [hstep] at h
      exact ih s1 s h (fun e he => hnc e (List.mem_cons_of_mem ev he))
        (stepFn_no_cancel hstep (hnc ev (List.mem_cons_self ev rest)))

/-- C1, counterexample: the claim that at most `N` worker tasks ever run
concurrently fails.  With `concurrency = 1`, a scheduler-level exception
in the stats/sweep block of an iteration that has already spawned a
worker makes the `except` clause (queue.py line 152) release a semaphore
slot the spawned worker still holds, after which a second worker can be
claimed and spawned: two workers live under a bound of one. -/
theorem C1_counterexample :
    ¬ (∀ (concurrency : Nat) (evs : List SchedEvent) (s : SchedState),
        runTrace (initState concurrency) evs = some s →
        s.running ≤ concurrency) := by
  intro hclaim
  have h2 := hclaim 1 [SchedEvent.excAfterSpawn, SchedEvent.claimRun]
      { sem := 0, running := 2, acq := 2, rel := 1, shuttingDown := false }
      (by decide)
  exact absurd h2 (by decide)

/-- C1, amended: in every execution the gate accounting satisfies
acquire count minus release count ≤ `N`; and in every execution in
which no scheduler-level exception strikes after the iteration has
already disposed of its slot (spawned a worker, or released after an
empty poll), at most `N` worker tasks are live at any point.  A
scheduler-level exception at those two points makes the `except` clause
release a slot that was already handed over or already released, and the
concurrency bound can then be exceeded. -/
theorem C1_gate_bound (concurrency : Nat) (evs : List SchedEvent) (s : SchedState)
    (h : runTrace (initState concurrency) evs = some s) :
    s.acq - s.rel ≤ concurrency ∧
      ((∀ ev ∈ evs, doubleReleaseEvent ev = false) → s.running ≤ concurrency) := by
  have hacct := runTrace_acct (N := concurrency) evs (initState concurrency) s h
      (by simp [initState])
  refine ⟨by omega, fun hsafe => ?_⟩
  have hsum := runTrace_safe_sum evs (initState concurrency) s h hsafe
  simp [initState] at hsum
  omega

theorem C1_gate_bound_witness :
    (2 : Nat) - (1 : Nat) ≤ 2 ∧ (1 : Nat) ≤ 2 := by
  have h := C1_gate_bound 2 [SchedEvent.claimRun, SchedEvent.claimNone]
      { sem := 1, running := 1, acq := 2, rel := 1, shuttingDown := false }
      (by decide)
  exact ⟨h.1, h.2 (by decide)⟩

/-- C5: any exception escaping the scheduler's own poll/claim/dispatch
logic is caught by the `except` clause inside the loop body, and the
loop continues: after any sequence of events that does not include
external cancellation the scheduler is still running, and from any such
reachable state every scheduler-level exception event leads to a state
in which the scheduler is still running.  Only `cancelSched` moves the
loop into its `finally` shutdown block. -/
theorem C5_scheduler_survives (concurrency : Nat) (evs : List SchedEvent)
    (s : SchedState)
    (h : runTrace (initState concurrency) evs = some s)
    (hnc : ∀ ev ∈ evs, ev ≠ SchedEvent.cancelSched) :
    s.shuttingDown = false ∧
      ∀ ev : SchedEvent, isExcEvent ev = true → 0 < s.sem →
        ∃ s2 : SchedState, stepFn s ev = some s2 ∧ s2.shuttingDown = false := by
  have hsd := runTrace_no_cancel evs (initState concurrency) s h hnc (by simp [initState])
  refine ⟨hsd, fun ev hex hsem => ?_⟩
  cases ev with
  | claimNone => exact absurd hex (by simp [isExcEvent])
  | claimRun => exact absurd hex (by simp [isExcEvent])
  | excDuringClaim =>
    refine ⟨{ s with sem := s.sem - 1 + 1, acq := s.acq + 1, rel := s.rel + 1 }, ?_, ?_⟩
    · simp [stepFn, hsd, hsem]
    · simpa using hsd
  | excAfterSpawn =>
    refine ⟨{ s with
        sem := s.sem - 1 + 1
        running := s.running + 1
        acq := s.acq + 1
        rel := s.rel + 1 }, ?_, ?_⟩
    · simp [stepFn, hsd, hsem]
    · simpa using hsd
  | excAfterNone =>
    refine ⟨{ s with sem := s.sem - 1 + 1 + 1, acq := s.acq + 1, rel := s.rel + 2 }, ?_, ?_⟩
    · simp [stepFn, hsd, hsem]
    · simpa using hsd
  | workerDone => exact absurd hex (by simp [isExcEvent])
  | cancelSched => exact absurd hex (by simp [isExcEvent])

theorem C5_scheduler_survives_witness :
    (false = false) ∧
      ∃ s2 : SchedState,
        stepFn (initState 1) SchedEvent.excAfterNone = some s2 ∧
          s2.shuttingDown = false := by
  have h := C5_scheduler_survives 1 [] (initState 1) rfl (by simp)
  exact ⟨rfl, h.2 SchedEvent.excAfterNone rfl (by decide)⟩

/-- C7: the `finally` shutdown block cancels every live worker task and
every live webhook task, waits with `asyncio.wait_for` bounded by
`SHUTDOWN_GRACE_PERIOD_SECS = 5`, and therefore never waits longer than
the grace period, whatever the tasks' unwind times — including tasks
that never unwind. -/
theorem C7_shutdown_bounded (workers webhooks : List Nat)
    (unwindTimes : List (Option Nat)) :
    (∀ id ∈ workers, ShutdownAction.cancelTask id ∈ shutdownActions workers webhooks) ∧
    (∀ id ∈ webhooks, ShutdownAction.cancelTask id ∈ shutdownActions workers webhooks) ∧
    ShutdownAction.waitUpTo SHUTDOWN_GRACE_PERIOD_SECS ∈ shutdownActions workers webhooks ∧
    shutdownDuration unwindTimes ≤ SHUTDOWN_GRACE_PERIOD_SECS := by
  refine ⟨fun id hid => ?_, fun id hid => ?_, ?_, ?_⟩
  · unfold shutdownActions
    exact List.mem_append_left _ (List.mem_append_left _ (List.mem_map_of_mem _ hid))
  · unfold shutdownActions
    exact List.mem_append_left _ (List.mem_append_right _ (List.mem_map_of_mem _ hid))
  · unfold shutdownActions
    exact List.mem_append_right _ (List.mem_cons_self _ _)
  · unfold shutdownDuration waitForDuration
    cases gatherCompletion unwindTimes with
    | none => exact Nat.le_refl _
    | some t => exact Nat.min_le_right _ _

theorem C7_shutdown_bounded_witness :
    ShutdownAction.cancelTask 10 ∈ shutdownActions [10] [20] ∧
    ShutdownAction.cancelTask 20 ∈ shutdownActions [10] [20] ∧
    ShutdownAction.waitUpTo SHUTDOWN_GRACE_PERIOD_SECS ∈ shutdownActions [10] [20] ∧
    shutdownDuration [some 3, none] ≤ SHUTDOWN_GRACE_PERIOD_SECS := by
  have h := C7_shutdown_bounded [10] [20] [some 3, none]
  exact ⟨h.1 10 (by simp), h.2.1 20 (by simp), h.2.2.1, h.2.2.2⟩

/-- C8: divergence witness for the `wait` flag.  The claim (and the
comment at queue.py line 123) says the first claim is made without
waiting, but on the first iteration the stats block at line 112 assigns
`last_stats_secs` before line 124 evaluates
`wait = tup is None and last_stats_secs is not None`, so the first
`Runs.next` call is made with `wait=True`, for every stats interval and
clock value. -/
theorem C8_first_iteration_waits (interval now : Nat) :
    calcStats interval initPollState.lastStatsSecs now = true ∧
    iterationWait interval initPollState now = true := by
  constructor
  · rfl
  · simp [iterationWait, initPollState, waitFlag, statsUpdate, calcStats]

/-- A concrete non-temporary run with a webhook target. -/
def sampleRun : RunRec :=
  { runId := 7, threadId := 3, temporary := false, webhook := some "http://x/hook" }

/-- A pipeline attempt ending in a retriable (transient) exception. -/
def retriablePipe : PipelineRun :=
  { events := [], term := .raised .retriableExc }

/-- A pipeline attempt ending in the user-rollback signal. -/
def rollbackPipe : PipelineRun :=
  { events := [], term := .raised .userRollback }

/-- A pipeline attempt that completes after a checkpoint event followed
by a task-result event matching the checkpoint's only task. -/
def successPipe : PipelineRun :=
  { events := [StreamEvent.checkpointEv { values := 11, tasks := [{ id := 1, name := 5, result := 0 }] },
      StreamEvent.taskResultEv { id := 1, result := 9 }],
    term := .completed }

/-- C2: when the pipeline raises an exception of the designated
retriable set (and the attempt ceiling was not exceeded, so the
pipeline actually ran), the worker writes status `pending` for the run
to the store and re-raises that same exception; every other branch of
the `try` returns the result normally — the only other way the worker
coroutine ends in an exception is the rollback branch's cleanup delete
failing with an error other than `InFailedSqlTransaction`, which is not
one of the `except` branches and propagates the deletion error, not the
triggering one. -/
theorem C2_retriable_branch (run : RunRec) (attempt : Nat) (pipe : PipelineRun)
    (del : DeleteOutcome) (e : ExcKind)
    (hatt : attempt ≤ MAX_RETRY_ATTEMPTS) (hterm : pipe.term = Termination.raised e) :
    (classifyExc e = Branch.retryB →
        (worker run attempt pipe del).ops = [StoreOp.setStatus run.runId RunStatus.pending] ∧
        (worker run attempt pipe del).ret = WorkerRet.raised e) ∧
    (classifyExc e ≠ Branch.retryB →
        (classifyExc e ≠ Branch.rollbackB ∨ del = DeleteOutcome.ok ∨
          del = DeleteOutcome.failedTxn) →
        ∃ r, (worker run attempt pipe del).ret = WorkerRet.ok r) := by
  have hn : ¬ (MAX_RETRY_ATTEMPTS < attempt) := by omega
  cases e with
  | timeoutErr =>
    refine ⟨fun hc => absurd hc (by simp [classifyExc]), fun _ _ => ?_⟩
    simp only [worker, hterm, hn, if_false, classifyExc]
    exact ⟨_, rfl⟩
  | userRollback =>
    refine ⟨fun hc => absurd hc (by simp [classifyExc]), fun _ hdel => ?_⟩
    rcases hdel with h1 | h2 | h3
    · exact absurd (by simp [classifyExc]) (fun hh => h1 hh)
    · subst h2
      simp only [worker, hterm, hn, if_false, classifyExc]
      exact ⟨_, rfl⟩
    · subst h3
      simp only [worker, hterm, hn, if_false, classifyExc]
      exact ⟨_, rfl⟩
  | userInterrupt =>
    refine ⟨fun hc => absurd hc (by simp [classifyExc]), fun _ _ => ?_⟩
    simp only [worker, hterm, hn, if_false, classifyExc]
    exact ⟨_, rfl⟩
  | retriableExc =>
    refine ⟨fun _ => ⟨?_, ?_⟩, fun hc _ => absurd rfl hc⟩
    · simp [worker, hterm, hn, classifyExc]
    · simp [worker, hterm, hn, classifyExc]
  | remoteExc =>
    refine ⟨fun hc => absurd hc (by simp [classifyExc]), fun _ _ => ?_⟩
    simp only [worker, hterm, hn, if_false, classifyExc]
    exact ⟨_, rfl⟩
  | runtimeMaxAttempts =>
    refine ⟨fun hc => absurd hc (by simp [classifyExc]), fun _ _ => ?_⟩
    simp only [worker, hterm, hn, if_false, classifyExc]
    exact ⟨_, rfl⟩
  | otherExc code =>
    refine ⟨fun hc => absurd hc (by simp [classifyExc]), fun _ _ => ?_⟩
    simp only [worker, hterm, hn, if_false, classifyExc]
    exact ⟨_, rfl⟩

theorem C2_retriable_branch_witness :
    (worker sampleRun 1 retriablePipe DeleteOutcome.ok).ops =
        [StoreOp.setStatus sampleRun.runId RunStatus.pending] ∧
    (worker sampleRun 1 retriablePipe DeleteOutcome.ok).ret =
        WorkerRet.raised ExcKind.retriableExc :=
  (C2_retriable_branch sampleRun 1 retriablePipe DeleteOutcome.ok ExcKind.retriableExc
    (by decide) rfl).1 rfl

/-- C3: a run claimed with attempt number above `MAX_RETRY_ATTEMPTS = 3`
fails immediately: the worker's outcome does not depend on the pipeline
or on the rollback-delete behaviour (the pipeline is never invoked), the
only status written is the terminal `error`, no `pending` write occurs,
and the worker returns normally with status `error`. -/
theorem C3_attempt_ceiling (run : RunRec) (attempt : Nat)
    (pipe pipe2 : PipelineRun) (del del2 : DeleteOutcome)
    (hatt : MAX_RETRY_ATTEMPTS < attempt) :
    worker run attempt pipe del = worker run attempt pipe2 del2 ∧
    statusWrites (worker run attempt pipe del).ops = [(run.runId, RunStatus.error)] ∧
    (∀ rid, (rid, RunStatus.pending) ∉ statusWrites (worker run attempt pipe del).ops) ∧
    ∃ r, (worker run attempt pipe del).ret = WorkerRet.ok r ∧
      r.status = some RunStatus.error := by
  refine ⟨by simp [worker, hatt], ?_, ?_, ?_⟩
  · cases htemp : run.temporary <;>
      simp [worker, hatt, statusWrites, finalizeOps, htemp]
  · intro rid
    cases htemp : run.temporary <;>
      simp [worker, hatt, statusWrites, finalizeOps, htemp]
  · simp only [worker, hatt, if_true]
    exact ⟨_, rfl, rfl⟩

theorem C3_attempt_ceiling_witness :
    worker sampleRun 4 retriablePipe DeleteOutcome.ok =
        worker sampleRun 4 successPipe DeleteOutcome.failedTxn ∧
    statusWrites (worker sampleRun 4 retriablePipe DeleteOutcome.ok).ops =
        [(sampleRun.runId, RunStatus.error)] ∧
    (7, RunStatus.pending) ∉ statusWrites (worker sampleRun 4 retriablePipe DeleteOutcome.ok).ops ∧
    ∃ r, (worker sampleRun 4 retriablePipe DeleteOutcome.ok).ret = WorkerRet.ok r ∧
      r.status = some RunStatus.error := by
  have h := C3_attempt_ceiling sampleRun 4 retriablePipe successPipe
      DeleteOutcome.ok DeleteOutcome.failedTxn (by decide)
  exact ⟨h.1, h.2.1, h.2.2.1 7, h.2.2.2⟩

/-- C4: on the user-rollback signal the worker attempts `Runs.delete`
for the run; every normally returned result of this branch carries
checkpoint `None` and status `rollback`; when the delete fails with
`InFailedSqlTransaction` the error is swallowed, the transactional
scope is closed early (`exit.aclose()`), and the worker still returns
normally after thread finalization; when the delete fails with any
other error, that error propagates out of the worker uncaught, with no
finalization performed. -/
theorem C4_rollback_branch (run : RunRec) (attempt : Nat) (pipe : PipelineRun)
    (del : DeleteOutcome)
    (hatt : attempt ≤ MAX_RETRY_ATTEMPTS)
    (hterm : pipe.term = Termination.raised ExcKind.userRollback) :
    StoreOp.deleteRun run.runId run.threadId ∈ (worker run attempt pipe del).ops ∧
    (∀ r, (worker run attempt pipe del).ret = WorkerRet.ok r →
        r.checkpoint = none ∧ r.status = some RunStatus.rollback) ∧
    (del = DeleteOutcome.failedTxn →
        (worker run attempt pipe del).ops =
          StoreOp.deleteRun run.runId run.threadId :: StoreOp.closeExit ::
            finalizeOps run none (some ExcKind.userRollback) ∧
        ∃ r, (worker run attempt pipe del).ret = WorkerRet.ok r) ∧
    (∀ e2, del = DeleteOutcome.failOther e2 →
        (worker run attempt pipe del).ret = WorkerRet.raised e2 ∧
        (worker run attempt pipe del).ops =
          [StoreOp.deleteRun run.runId run.threadId]) := by
  have hn : ¬ (MAX_RETRY_ATTEMPTS < attempt) := by omega
  cases del with
  | ok =>
    refine ⟨?_, ?_, by simp, ?_⟩
    · simp [worker, hterm, hn, classifyExc]
    · intro r hr
      simp only [worker, hterm, hn, if_false, classifyExc] at hr
      injection hr with h2
      subst h2
      exact ⟨rfl, rfl⟩
    · intro e2 he2
      exact absurd he2 (by simp)
  | failedTxn =>
    refine ⟨?_, ?_, fun _ => ?_, ?_⟩
    · simp [worker, hterm, hn, classifyExc]
    · intro r hr
      simp only [worker, hterm, hn, if_false, classifyExc] at hr
      injection hr with h2
      subst h2
      exact ⟨rfl, rfl⟩
    · constructor
      · simp [worker, hterm, hn, classifyExc]
      · simp only [worker, hterm, hn, if_false, classifyExc]
        exact ⟨_, rfl⟩
    · intro e2 he2
      exact absurd he2 (by simp)
  | failOther e3 =>
    refine ⟨?_, ?_, by simp, ?_⟩
    · simp [worker, hterm, hn, classifyExc]
    · intro r hr
      simp only [worker, hterm, hn, if_false, classifyExc] at hr
      exact absurd hr (by simp)
    · intro e2 he2
      injection he2 with h3
      subst h3
      constructor
      · simp [worker, hterm, hn, classifyExc]
      · simp [worker, hterm, hn, classifyExc]

theorem C4_rollback_branch_witness :
    StoreOp.deleteRun sampleRun.runId sampleRun.threadId ∈
        (worker sampleRun 1 rollbackPipe DeleteOutcome.failedTxn).ops ∧
    (worker sampleRun 1 rollbackPipe DeleteOutcome.failedTxn).ops =
        StoreOp.deleteRun sampleRun.runId sampleRun.threadId :: StoreOp.closeExit ::
          finalizeOps sampleRun none (some ExcKind.userRollback) ∧
    ∃ r, (worker sampleRun 1 rollbackPipe DeleteOutcome.failedTxn).ret =
        WorkerRet.ok r := by
  have h := C4_rollback_branch sampleRun 1 rollbackPipe DeleteOutcome.failedTxn
      (by decide) rfl
  exact ⟨h.1, (h.2.2.1 rfl).1, (h.2.2.1 rfl).2⟩

/-- C6, counterexample: the claim that every branch — including the
retriable-failure branch — is followed by the unconditional auth-context
clear and thread finalization fails: on a retriable exception the
`raise` at queue.py line 349 leaves the `try` statement immediately, so
`set_auth_ctx(None, None)` and the thread delete/status write at lines
365-370 never run; the worker's only operation is the `pending` status
write. -/
theorem C6_counterexample :
    (worker sampleRun 1 retriablePipe DeleteOutcome.ok).ops =
        [StoreOp.setStatus 7 RunStatus.pending] ∧
    StoreOp.clearAuth ∉ (worker sampleRun 1 retriablePipe DeleteOutcome.ok).ops ∧
    StoreOp.threadSetStatus 3 none (some ExcKind.retriableExc) ∉
        (worker sampleRun 1 retriablePipe DeleteOutcome.ok).ops ∧
    StoreOp.threadDelete 3 ∉ (worker sampleRun 1 retriablePipe DeleteOutcome.ok).ops := by
  decide

/-- C6, amended: on every worker attempt exactly one branch-deciding
store operation (a run status write, or the rollback branch's run
deletion) is performed; on every branch on which the worker returns
normally, its operations end with the unconditional auth-context clear
followed by thread finalization (thread delete for a temporary run, else
the final thread status derived from the captured checkpoint and
exception); the retriable-failure branch instead re-raises directly
after writing `pending`, performing neither the auth clear nor thread
finalization. -/
theorem C6_branch_finalization (run : RunRec) (attempt : Nat) (pipe : PipelineRun)
    (del : DeleteOutcome) :
    (terminalMarkers (worker run attempt pipe del).ops).length = 1 ∧
    (∀ r, (worker run attempt pipe del).ret = WorkerRet.ok r →
        ∃ pre, (worker run attempt pipe del).ops =
          pre ++ finalizeOps run r.checkpoint r.exception) ∧
    (∀ e, pipe.term = Termination.raised e → classifyExc e = Branch.retryB →
        attempt ≤ MAX_RETRY_ATTEMPTS →
        StoreOp.clearAuth ∉ (worker run attempt pipe del).ops ∧
        (worker run attempt pipe del).ops = [StoreOp.setStatus run.runId RunStatus.pending]) := by
  by_cases hceil : MAX_RETRY_ATTEMPTS < attempt
  · refine ⟨?_, ?_, ?_⟩
    · cases htemp : run.temporary <;>
        simp [worker, hceil, terminalMarkers, finalizeOps, isTerminalMarker, htemp]
    · intro r hr
      simp only [worker, hceil, if_true] at hr
      injection hr with h2
      subst h2
      exact ⟨[StoreOp.setStatus run.runId RunStatus.error], by simp [worker, hceil]⟩
    · intro e _ _ hle
      omega
  · cases hterm : pipe.term with
    | completed =>
      refine ⟨?_, ?_, ?_⟩
      · cases htemp : run.temporary <;>
          simp [worker, hceil, hterm, terminalMarkers, finalizeOps, isTerminalMarker, htemp]
      · intro r hr
        simp only [worker, hceil, hterm, if_false] at hr
        injection hr with h2
        subst h2
        exact ⟨[StoreOp.setStatus run.runId RunStatus.success],
          by simp [worker, hceil, hterm]⟩
      · intro e he
        simp at he
    | raised e =>
      cases e with
      | timeoutErr =>
        refine ⟨?_, ?_, ?_⟩
        · cases htemp : run.temporary <;>
            simp [worker, hceil, hterm, classifyExc, terminalMarkers, finalizeOps,
              isTerminalMarker, htemp]
        · intro r hr
          simp only [worker, hceil, hterm, if_false, classifyExc] at hr
          injection hr with h2
          subst h2
          exact ⟨[StoreOp.setStatus run.runId RunStatus.timeout],
            by simp [worker, hceil, hterm, classifyExc]⟩
        · intro e2 he2 hc2
          injection he2 with h3
          subst h3
          simp [classifyExc] at hc2
      | userRollback =>
        cases del with
        | ok =>
          refine ⟨?_, ?_, ?_⟩
          · cases htemp : run.temporary <;>
              simp [worker, hceil, hterm, classifyExc, terminalMarkers, finalizeOps,
                isTerminalMarker, htemp]
          · intro r hr
            simp only [worker, hceil, hterm, if_false, classifyExc] at hr
            injection hr with h2
            subst h2
            exact ⟨[StoreOp.deleteRun run.runId run.threadId],
              by simp [worker, hceil, hterm, classifyExc]⟩
          · intro e2 he2 hc2
            injection he2 with h3
            subst h3
            simp [classifyExc] at hc2
        | failedTxn =>
          refine ⟨?_, ?_, ?_⟩
          · cases htemp : run.temporary <;>
              simp [worker, hceil, hterm, classifyExc, terminalMarkers, finalizeOps,
                isTerminalMarker, htemp]
          · intro r hr
            simp only [worker, hceil, hterm, if_false, classifyExc] at hr
            injection hr with h2
            subst h2
            exact ⟨[StoreOp.deleteRun run.runId run.threadId, StoreOp.closeExit],
              by simp [worker, hceil, hterm, classifyExc]⟩
          · intro e2 he2 hc2
            injection he2 with h3
            subst h3
            simp [classifyExc] at hc2
        | failOther e3 =>
          refine ⟨?_, ?_, ?_⟩
          · simp [worker, hceil, hterm, classifyExc, terminalMarkers, isTerminalMarker]
          · intro r hr
            simp only [worker, hceil, hterm, if_false, classifyExc] at hr
            exact absurd hr (by simp)
          · intro e2 he2 hc2
            injection he2 with h3
            subst h3
            simp [classifyExc] at hc2
      | userInterrupt =>
        refine ⟨?_, ?_, ?_⟩
        · cases htemp : run.temporary <;>
            simp [worker, hceil, hterm, classifyExc, terminalMarkers, finalizeOps,
              isTerminalMarker, htemp]
        · intro r hr
          simp only [worker, hceil, hterm, if_false, classifyExc] at hr
          injection hr with h2
          subst h2
          exact ⟨[StoreOp.setStatus run.runId RunStatus.interrupted],
            by simp [worker, hceil, hterm, classifyExc]⟩
        · intro e2 he2 hc2
          injection he2 with h3
          subst h3
          simp [classifyExc] at hc2
      | retriableExc =>
        refine ⟨?_, ?_, ?_⟩
        · simp [worker, hceil, hterm, classifyExc, terminalMarkers, isTerminalMarker]
        · intro r hr
          simp only [worker, hceil, hterm, if_false, classifyExc] at hr
          exact absurd hr (by simp)
        · intro e2 _ _ _
          constructor
          · simp [worker, hceil, hterm, classifyExc]
          · simp [worker, hceil, hterm, classifyExc]
      | remoteExc =>
        refine ⟨?_, ?_, ?_⟩
        · cases htemp : run.temporary <;>
            simp [worker, hceil, hterm, classifyExc, terminalMarkers, finalizeOps,
              isTerminalMarker, htemp]
        · intro r hr
          simp only [worker, hceil, hterm, if_false, classifyExc] at hr
          injection hr with h2
          subst h2
          exact ⟨[StoreOp.setStatus run.runId RunStatus.error],
            by simp [worker, hceil, hterm, classifyExc]⟩
        · intro e2 he2 hc2
          injection he2 with h3
          subst h3
          simp [classifyExc] at hc2
      | runtimeMaxAttempts =>
        refine ⟨?_, ?_, ?_⟩
        · cases htemp : run.temporary <;>
            simp [worker, hceil, hterm, classifyExc, terminalMarkers, finalizeOps,
              isTerminalMarker, htemp]
        · intro r hr
          simp only [worker, hceil, hterm, if_false, classifyExc] at hr
          injection hr with h2
          subst h2
          exact ⟨[StoreOp.setStatus run.runId RunStatus.error],
            by simp [worker, hceil, hterm, classifyExc]⟩
        · intro e2 he2 hc2
          injection he2 with h3
          subst h3
          simp [classifyExc] at hc2
      | otherExc code =>
        refine ⟨?_, ?_, ?_⟩
        · cases htemp : run.temporary <;>
            simp [worker, hceil, hterm, classifyExc, terminalMarkers, finalizeOps,
              isTerminalMarker, htemp]
        · intro r hr
          simp only [worker, hceil, hterm, if_false, classifyExc] at hr
          injection hr with h2
          subst h2
          exact ⟨[StoreOp.setStatus run.runId RunStatus.error],
            by simp [worker, hceil, hterm, classifyExc]⟩
        · intro e2 he2 hc2
          injection he2 with h3
          subst h3
          simp [classifyExc] at hc2

theorem C6_branch_finalization_witness :
    (terminalMarkers (worker sampleRun 1 retriablePipe DeleteOutcome.ok).ops).length = 1 ∧
    StoreOp.clearAuth ∉ (worker sampleRun 1 retriablePipe DeleteOutcome.ok).ops := by
  have h := C6_branch_finalization sampleRun 1 retriablePipe DeleteOutcome.ok
  exact ⟨h.1, (h.2.2 ExcKind.retriableExc rfl rfl (by decide)).1⟩

/-- The worker result of `sampleRun`'s successful attempt over
`successPipe`: the checkpoint is the snapshot with the task-result
event merged in. -/
def sampleSuccessResult : WorkerResult where
  checkpoint := some { values := 11, tasks := [{ id := 1, name := 5, result := 9 }] }
  status := some RunStatus.success
  exception := none
  run := sampleRun
  webhook := some "http://x/hook"

theorem worker_ok_webhook (run : RunRec) (attempt : Nat) (pipe : PipelineRun)
    (del : DeleteOutcome) (r : WorkerResult)
    (hr : (worker run attempt pipe del).ret = WorkerRet.ok r) :
    r.webhook = run.webhook := by
  by_cases hceil : MAX_RETRY_ATTEMPTS < attempt
  · simp only [worker, hceil, if_true] at hr
    injection hr with h2
    subst h2
    rfl
  · cases hterm : pipe.term with
    | completed =>
      simp only [worker, hceil, hterm, if_false] at hr
      injection hr with h2
      subst h2
      rfl
    | raised e =>
      cases e with
      | timeoutErr =>
        simp only [worker, hceil, hterm, if_false, classifyExc] at hr
        injection hr with h2
        subst h2
        rfl
      | userRollback =>
        cases del with
        | ok =>
          simp only [worker, hceil, hterm, if_false, classifyExc] at hr
          injection hr with h2
          subst h2
          rfl
        | failedTxn =>
          simp only [worker, hceil, hterm, if_false, classifyExc] at hr
          injection hr with h2
          subst h2
          rfl
        | failOther e3 =>
          simp only [worker, hceil, hterm, if_false, classifyExc] at hr
          exact absurd hr (by simp)
      | userInterrupt =>
        simp only [worker, hceil, hterm, if_false, classifyExc] at hr
        injection hr with h2
        subst h2
        rfl
      | retriableExc =>
        simp only [worker, hceil, hterm, if_false, classifyExc] at hr
        exact absurd hr (by simp)
      | remoteExc =>
        simp only [worker, hceil, hterm, if_false, classifyExc] at hr
        injection hr with h2
        subst h2
        rfl
      | runtimeMaxAttempts =>
        simp only [worker, hceil, hterm, if_false, classifyExc] at hr
        injection hr with h2
        subst h2
        rfl
      | otherExc code =>
        simp only [worker, hceil, hterm, if_false, classifyExc] at hr
        injection hr with h2
        subst h2
        rfl

/-- C9: when a worker coroutine returns normally and its run carried a
webhook target, the completion handler dispatches exactly one webhook
call to that URL with the fixed 20-second timeout and the payload built
from the result; in the run's ordered event log the dispatch comes after
all of the worker's store operations — so after the terminal status was
recorded; and the webhook task itself attempts exactly one POST and
never lets a failure escape, on every HTTP outcome (never retried, never
surfaced to the scheduler). -/
theorem C9_webhook_dispatch (run : RunRec) (attempt : Nat) (pipe : PipelineRun)
    (del : DeleteOutcome) (url : String) (r : WorkerResult)
    (hwh : run.webhook = some url)
    (hret : (worker run attempt pipe del).ret = WorkerRet.ok r) :
    cleanupWebhooks (worker run attempt pipe del) =
      [{ url := url, timeoutSecs := 20, payloadStatus := r.status,
         payloadValues := r.checkpoint.map (fun c => c.values),
         payloadError := r.exception }] ∧
    runLifecycle run attempt pipe del =
      ((worker run attempt pipe del).ops.map RunEvent.storeOp) ++
        [RunEvent.webhookDispatch
          { url := url, timeoutSecs := 20, payloadStatus := r.status,
            payloadValues := r.checkpoint.map (fun c => c.values),
            payloadError := r.exception }] ∧
    ∀ h : HttpOutcome,
      callWebhook
        { url := url, timeoutSecs := 20, payloadStatus := r.status,
          payloadValues := r.checkpoint.map (fun c => c.values),
          payloadError := r.exception } h =
        { postsAttempted := 1, escaped := none } := by
  have hwr : r.webhook = some url := by
    rw [worker_ok_webhook run attempt pipe del r hret, hwh]
  have h1 : cleanupWebhooks (worker run attempt pipe del) =
      [{ url := url, timeoutSecs := 20, payloadStatus := r.status,
         payloadValues := r.checkpoint.map (fun c => c.values),
         payloadError := r.exception }] := by
    simp [cleanupWebhooks, hret, hwr]
  refine ⟨h1, ?_, ?_⟩
  · simp [runLifecycle, h1]
  · intro h
    cases h <;> rfl

theorem C9_webhook_dispatch_witness :
    ∃ r : WorkerResult,
      (worker sampleRun 1 successPipe DeleteOutcome.ok).ret = WorkerRet.ok r ∧
      cleanupWebhooks (worker sampleRun 1 successPipe DeleteOutcome.ok) =
        [{ url := "http://x/hook", timeoutSecs := 20, payloadStatus := r.status,
           payloadValues := r.checkpoint.map (fun c => c.values),
           payloadError := r.exception }] ∧
      callWebhook
        { url := "http://x/hook", timeoutSecs := 20, payloadStatus := r.status,
          payloadValues := r.checkpoint.map (fun c => c.values),
          payloadError := r.exception } (HttpOutcome.httpError (ExcKind.otherExc 0)) =
        { postsAttempted := 1, escaped := none } := by
  refine ⟨sampleSuccessResult, rfl, ?_⟩
  have h := C9_webhook_dispatch sampleRun 1 successPipe DeleteOutcome.ok "http://x/hook"
      sampleSuccessResult rfl rfl
  exact ⟨h.1, h.2.2 (HttpOutcome.httpError (ExcKind.otherExc 0))⟩

/-- C10: for a non-temporary run within the attempt ceiling, the
worker's checkpoint tracking implements the specification's description
on every stream: the folded effect of the `on_checkpoint` /
`on_task_result` callbacks over any interleaving of checkpoint and
task-result events equals the latest checkpoint snapshot with every
later task-result event merged into its matching task entry (a
task-result event arriving before any checkpoint, or matching no task
entry, is a no-op); consequently the `WorkerResult` of the success
branch — and of every checkpoint-preserving failure branch — carries
exactly that checkpoint. -/
theorem C10_checkpoint_capture (run : RunRec) (attempt : Nat) (pipe : PipelineRun)
    (del : DeleteOutcome)
    (htemp : run.temporary = false) (hatt : attempt ≤ MAX_RETRY_ATTEMPTS) :
    (∀ evs : List StreamEvent, foldEvents none evs = specFinalCheckpoint evs) ∧
    (pipe.term = Termination.completed →
        ∃ r, (worker run attempt pipe del).ret = WorkerRet.ok r ∧
          r.checkpoint = specFinalCheckpoint pipe.events) ∧
    (∀ e, pipe.term = Termination.raised e →
        (classifyExc e = Branch.timeoutB ∨ classifyExc e = Branch.interruptB ∨
          classifyExc e = Branch.errorB) →
        ∃ r, (worker run attempt pipe del).ret = WorkerRet.ok r ∧
          r.checkpoint = specFinalCheckpoint pipe.events) := by
  have hn : ¬ (MAX_RETRY_ATTEMPTS < attempt) := by omega
  have hfold : ∀ evs : List StreamEvent, foldEvents none evs = specFinalCheckpoint evs := by
    intro evs
    rw [foldEvents_spec evs none]
    unfold specFinalCheckpoint
    cases lastCheckpointSplit evs with
    | none => rfl
    | some p => rfl
  refine ⟨hfold, ?_, ?_⟩
  · intro hterm
    simp only [worker, hn, if_false, hterm, htemp]
    exact ⟨_, rfl, hfold pipe.events⟩
  · intro e hterm hcl
    cases e with
    | timeoutErr =>
      simp only [worker, hn, if_false, hterm, classifyExc, htemp]
      exact ⟨_, rfl, hfold pipe.events⟩
    | userRollback => rcases hcl with h | h | h <;> simp [classifyExc] at h
    | userInterrupt =>
      simp only [worker, hn, if_false, hterm, classifyExc, htemp]
      exact ⟨_, rfl, hfold pipe.events⟩
    | retriableExc => rcases hcl with h | h | h <;> simp [classifyExc] at h
    | remoteExc =>
      simp only [worker, hn, if_false, hterm, classifyExc, htemp]
      exact ⟨_, rfl, hfold pipe.events⟩
    | runtimeMaxAttempts =>
      simp only [worker, hn, if_false, hterm, classifyExc, htemp]
      exact ⟨_, rfl, hfold pipe.events⟩
    | otherExc code =>
      simp only [worker, hn, if_false, hterm, classifyExc, htemp]
      exact ⟨_, rfl, hfold pipe.events⟩

theorem C10_checkpoint_capture_witness :
    foldEvents none successPipe.events = specFinalCheckpoint successPipe.events ∧
    ∃ r, (worker sampleRun 1 successPipe DeleteOutcome.ok).ret = WorkerRet.ok r ∧
      r.checkpoint = specFinalCheckpoint successPipe.events := by
  have h := C10_checkpoint_capture sampleRun 1 successPipe DeleteOutcome.ok rfl (by decide)
  exact ⟨h.1 successPipe.events, h.2.1 rfl⟩

end LangGraphQueue
